import Mathlib

/-!
# Verification of NetBox's config-context resolver and feature registry

Shallow embedding of `extras/models/configcontexts.py` and `extras/utils.py`
(the NetBox repository).  JSON documents stored in Django `JSONField` columns
are modelled by the inductive type `Json`; Python `dict`s are insertion-ordered
association lists, as in CPython.  Helper code of the repository that is not
part of the excerpt (`utilities.utils.deepmerge`, the `ConfigContextQuerySet`,
the extras registry, `EXTRAS_FEATURES` and Django's `Q` objects) is modelled
from the specification, as flagged in the corresponding doc comments.
-/

namespace Netbox

/-- A JSON value, as stored in a Django `JSONField`.  Objects are
insertion-ordered association lists, mirroring CPython `dict` semantics. -/
inductive Json : Type where
  | null : Json
  | bool : Bool → Json
  | num : Int → Json
  | str : String → Json
  | arr : List Json → Json
  | obj : List (String × Json) → Json
deriving Repr

/-- `d.get(k)`: first binding of key `k` in an association list (keys are
unique in a real Python dict, so first = only). -/
def lookupKey : List (String × Json) → String → Option Json
  | [], _ => none
  | (k', v') :: rest, k => if k' = k then some v' else lookupKey rest k

/-- Last binding of key `k` in an association list (the binding a sequence of
`d[k] = v` assignments would leave in force). -/
def lookupLast : List (String × Json) → String → Option Json
  | [], _ => none
  | (k', v') :: rest, k =>
      match lookupLast rest k with
      | some v => some v
      | none => if k' = k then some v' else none

/-- `d[k] = v` on a Python dict: overwrite the first occurrence of `k` in
place (keys are unique in a real dict), else append the new binding. -/
def setKey : List (String × Json) → String → Json → List (String × Json)
  | [], k, v => [(k, v)]
  | (k', v') :: rest, k, v =>
      if k' = k then (k', v) :: rest else (k', v') :: setKey rest k v

/-- `type(x) is dict` for a JSON value. -/
def isObj : Json → Bool
  | Json.obj _ => true
  | _ => false

/-- Python truthiness of a JSON value (`if x:`): `None`, `False`, `0`, `""`,
`[]` and `{}` are falsy, everything else truthy. -/
def truthy : Json → Bool
  | Json.null => false
  | Json.bool b => b
  | Json.num n => decide (n ≠ 0)
  | Json.str s => decide (s ≠ "")
  | Json.arr xs => !xs.isEmpty
  | Json.obj fs => !fs.isEmpty

mutual

/-- The value `deepmerge` stores for key `k`: if both the original value at
`k` and the new value are mappings they are merged recursively, otherwise
the new value replaces the old outright.

Modelled from the spec: `utilities.utils.deepmerge` is not part of the
excerpted sources.  The spec defines deep merge as "recursive merge of two
mappings where nested mappings combine key-wise and all other values are
overwritten by the later operand". -/
def mergedValue (ofields : List (String × Json)) (k : String) (v : Json) : Json :=
  match lookupKey ofields k, v with
  | some (Json.obj oo), Json.obj nn => Json.obj (deepmergeFields oo oo nn)
  | _, _ => v
termination_by sizeOf v

/-- Fold the fields of the new document into the accumulator, one `d[k] = v`
assignment per field, deciding merge-vs-replace against the original
document `ofields` (as `deepmerge` consults `original.get(key)`).

Modelled from the spec (see `mergedValue`). -/
def deepmergeFields (ofields acc : List (String × Json)) :
    List (String × Json) → List (String × Json)
  | [] => acc
  | (k, v) :: rest =>
      deepmergeFields ofields (setKey acc k (mergedValue ofields k v)) rest
termination_by l => sizeOf l

end

/-- Deep merge of the later document `new` into `original`.

Modelled from the spec: "recursive merge of two mappings where nested
mappings combine key-wise and all other values are overwritten by the later
operand".  `deepmerge` is only ever applied to two mappings by the resolver
(context data is validated to be an object and local data is guarded); the
catch-all case is never reached by validated data. -/
def deepmerge (original new : Json) : Json :=
  match original, new with
  | Json.obj o, Json.obj n => Json.obj (deepmergeFields o o n)
  | _, _ => new

/-- A `ConfigContext` row (`extras/models/configcontexts.py`): a named,
weighted JSON document.  The many-to-many scoping fields (regions, sites,
...) only select which contexts match a target object; matching is supplied
externally here (see `get_for_object`), so they are not carried. -/
structure ConfigContext : Type where
  name : String
  weight : Nat
  data : Json

/-- The `Meta.ordering = ['weight', 'name']` order on `ConfigContext` rows:
ascending weight, ties broken by ascending name. -/
def ccLE (a b : ConfigContext) : Prop :=
  a.weight < b.weight ∨ (a.weight = b.weight ∧ a.name ≤ b.name)

/-- Strict `(weight, name)` order: `a` comes strictly before `b`. -/
def ccLT (a b : ConfigContext) : Prop :=
  a.weight < b.weight ∨ (a.weight = b.weight ∧ a.name < b.name)

instance : DecidableRel ccLE := fun a b => by
  unfold ccLE; infer_instance

instance : DecidableRel ccLT := fun a b => by
  unfold ccLT; infer_instance

instance : IsTotal ConfigContext ccLE where
  total a b := by
    rcases Nat.lt_trichotomy a.weight b.weight with h | h | h
    · exact Or.inl (Or.inl h)
    · rcases le_total a.name b.name with h' | h'
      · exact Or.inl (Or.inr ⟨h, h'⟩)
      · exact Or.inr (Or.inr ⟨h.symm, h'⟩)
    · exact Or.inr (Or.inl h)

instance : IsTrans ConfigContext ccLE where
  trans a b c hab hbc := by
    rcases hab with h | ⟨h, h'⟩ <;> rcases hbc with g | ⟨g, g'⟩
    · exact Or.inl (h.trans g)
    · exact Or.inl (g ▸ h)
    · exact Or.inl (h ▸ g)
    · exact Or.inr ⟨h.trans g, h'.trans g'⟩

/-- `ConfigContextQuerySet.get_for_object(obj, aggregate_data=True)`: the
data payloads of the matching contexts in `(weight, name)` order.

Modelled from the spec: `extras/querysets.py` is not part of the excerpted
sources.  The spec describes it as "gathers matching context records, sorts
by weight, and deep-merges their JSON payloads in order" with ordering key
`(weight, name)` ascending (the model's `Meta.ordering`); which records
match a given object is scope filtering out of scope here, so the matching
set is the function's input. -/
def get_for_object (store : List ConfigContext) : List Json :=
  (List.insertionSort ccLE store).map (fun c => c.data)

/-- A record carrying the `ConfigContextModel` mixin state
(`extras/models/configcontexts.py`).  `config_context_data` models the
optional precomputed annotation consulted by `get_config_context`: `none`
means the attribute is absent (`hasattr` false), `some none` means it is
present but `None`, `some (some l)` means it holds the list `l`. -/
structure ConfigContextModel : Type where
  config_context_data : Option (Option (List Json))
  local_context_data : Option Json

/-- The `config_context_data` local of `get_config_context`:
`self.config_context_data or []` when the attribute exists (`hasattr`), else
the store lookup `ConfigContext.objects.get_for_object(self, aggregate_data=True)`. -/
def config_context_list (store : List ConfigContext) (m : ConfigContextModel) : List Json :=
  match m.config_context_data with
  | some v =>
      match v with
      | none => []
      | some l => if l.isEmpty then [] else l
  | none => get_for_object store

/-- `ConfigContextModel.get_config_context`: fold the matching context
payloads (precomputed annotation if the attribute exists, else a store
lookup in `(weight, name)` order) with `deepmerge`, then merge truthy local
context data last.  `store` is the table of `ConfigContext` rows matching
the target object. -/
def get_config_context (store : List ConfigContext) (m : ConfigContextModel) : Json :=
  let data := (config_context_list store m).foldl deepmerge (Json.obj [])
  match m.local_context_data with
  | some l => if truthy l then deepmerge data l else data
  | none => data

/-- `ConfigContext.clean`: reject `data` that is not a JSON object, with a
validation error keyed to the `data` field. -/
def ConfigContext.clean (c : ConfigContext) : Except (String × String) Unit :=
  if isObj c.data then Except.ok ()
  else Except.error ("data", "JSON data must be in object form. Example: \x7b\"foo\": 123\x7d")

/-- `ConfigContextModel.clean`: reject `local_context_data` that is truthy
and not a JSON object, with a validation error keyed to the
`local_context_data` field (the guard `if self.local_context_data and ...`
short-circuits on falsy values). -/
def ConfigContextModel.clean (m : ConfigContextModel) : Except (String × String) Unit :=
  match m.local_context_data with
  | none => Except.ok ()
  | some j =>
      if truthy j && !isObj j then
        Except.error ("local_context_data",
          "JSON data must be in object form. Example: \x7b\"foo\": 123\x7d")
      else Except.ok ()

/-- The fixed enumerated set of supported feature kinds.

Modelled from the spec: `extras/constants.py` is not part of the excerpted
sources.  The spec describes "a fixed enumerated set of supported feature
kinds" — named capabilities such as tagging and webhooks. -/
def EXTRAS_FEATURES : List String :=
  ["custom_fields", "custom_links", "export_templates", "job_results",
   "journaling", "tags", "webhooks"]

/-- The process-wide feature registry (`registry['model_features']`).

Modelled from the spec: `extras/registry.py` is not part of the excerpted
sources.  The spec describes it as a "mapping from feature name → mapping
from app label → set of model names"; sets keep insertion order here, which
is irrelevant to membership. -/
abbrev Registry : Type := List (String × List (String × List String))

/-- `registry['model_features'][feature]`: the app-label buckets registered
under a feature (empty when the feature has no bucket yet). -/
def featureApps : Registry → String → List (String × List String)
  | [], _ => []
  | (f', apps) :: rest, f => if f' = f then apps else featureApps rest f

/-- Add a model name to an app-label bucket (set insertion: a no-op when the
name is already present). -/
def addModel : List (String × List String) → String → String → List (String × List String)
  | [], app, mdl => [(app, [mdl])]
  | (a, ms) :: rest, app, mdl =>
      if a = app then (a, if mdl ∈ ms then ms else ms ++ [mdl]) :: rest
      else (a, ms) :: addModel rest app mdl

/-- `registry['model_features'][feature][app_label].add(model_name)`. -/
def addFeatureEntry : Registry → String → String → String → Registry
  | [], f, app, mdl => [(f, [(app, [mdl])])]
  | (f', apps) :: rest, f, app, mdl =>
      if f' = f then (f', addModel apps app mdl) :: rest
      else (f', apps) :: addFeatureEntry rest f app mdl

/-- Is `(app, mdl)` registered under feature `f`? -/
def registered (r : Registry) (f app mdl : String) : Bool :=
  (featureApps r f).any (fun p => decide (p.1 = app) && decide (mdl ∈ p.2))

/-- `extras.utils.register_features(model, features)`: for each feature in
order, fail on an unrecognized name, else record the model's
`(app_label, model_name)` pair (from `model._meta.label_lower`, passed here
as the two string arguments).  The global registry is threaded explicitly:
the result is the registry state when the call returns or when the
`ValueError` is raised, paired with the error message if any. -/
def register_features : Registry → String → String → List String → Registry × Option String
  | r, _, _, [] => (r, none)
  | r, app, mdl, f :: rest =>
      if f ∈ EXTRAS_FEATURES then
        register_features (addFeatureEntry r f app mdl) app mdl rest
      else (r, some (f ++ " is not a valid extras feature!"))

/-- A Django `Q` filter expression, as built by `FeatureQuery.get_query`:
the empty (unconstrained) `Q()`, a `Q(app_label=..., model__in=[...])`
conjunction, or a disjunction.

Modelled from the spec: Django's `Q` is an external collaborator; combining
with an empty `Q` returns the other operand, and an empty `Q` used as a
filter matches everything. -/
inductive DjangoQ : Type where
  | empty : DjangoQ
  | cond : String → List String → DjangoQ
  | or : DjangoQ → DjangoQ → DjangoQ

/-- `q1 | q2` on Django `Q` objects: an empty operand yields the other. -/
def qOr : DjangoQ → DjangoQ → DjangoQ
  | DjangoQ.empty, b => b
  | a, DjangoQ.empty => a
  | a, b => DjangoQ.or a b

/-- Does a content type `(app, mdl)` satisfy the filter expression? -/
def evalQ : DjangoQ → String → String → Bool
  | DjangoQ.empty, _, _ => true
  | DjangoQ.cond a ms, app, mdl => decide (a = app) && decide (mdl ∈ ms)
  | DjangoQ.or p q, app, mdl => evalQ p app mdl || evalQ q app mdl

/-- `extras.utils.FeatureQuery`: stores only the feature name at
construction time; the registry is consulted at call time. -/
structure FeatureQuery : Type where
  feature : String

/-- `FeatureQuery.get_query`: fold `query |= Q(app_label=..., model__in=...)`
over the feature's buckets in the registry `r` supplied at evaluation
time. -/
def FeatureQuery.get_query (fq : FeatureQuery) (r : Registry) : DjangoQ :=
  (featureApps r fq.feature).foldl (fun q p => qOr q (DjangoQ.cond p.1 p.2)) DjangoQ.empty

/-- Lookup of a key in a JSON value: a field lookup on objects, `none`
elsewhere. -/
def lookupJ : Json → String → Option Json
  | Json.obj fs, k => lookupKey fs k
  | _, _ => none

/-- Last binding of a key in a JSON value (objects only). -/
def lookupLastJ : Json → String → Option Json
  | Json.obj fs, k => lookupLast fs k
  | _, _ => none

/-! ### Concrete instances used by individual claims -/

/-- Low-weight context binding `"k"` to a nested mapping. -/
def c1low : ConfigContext := ⟨"base", 1000, Json.obj [("k", Json.obj [("x", Json.num 1)])]⟩

/-- High-weight context binding `"k"` to a different nested mapping. -/
def c1high : ConfigContext := ⟨"override", 2000, Json.obj [("k", Json.obj [("y", Json.num 2)])]⟩

/-- Low-weight context binding `"k"` to a scalar. -/
def c1wLow : ConfigContext := ⟨"alpha", 1000, Json.obj [("k", Json.num 1)]⟩

/-- High-weight context binding `"k"` to a different scalar. -/
def c1wHigh : ConfigContext := ⟨"beta", 2000, Json.obj [("k", Json.num 2)]⟩

/-- Inherited context binding `"ntp"` to `["1.1.1.1"]` (the spec's local
override example). -/
def c2ctx : ConfigContext :=
  ⟨"site", 1000, Json.obj [("ntp", Json.arr [Json.str "1.1.1.1"])]⟩

/-- The spec's end-to-end example context `A`. -/
def c3A : ConfigContext :=
  ⟨"base", 1000, Json.obj [("a", Json.num 1), ("b", Json.obj [("x", Json.num 1)])]⟩

/-- The spec's end-to-end example context `B`. -/
def c3B : ConfigContext :=
  ⟨"override", 2000, Json.obj [("b", Json.obj [("y", Json.num 2)]), ("c", Json.num 3)]⟩

/-- Registry obtained by registering two models under `"webhooks"`,
starting from the empty registry. -/
def c8registry : Registry :=
  (register_features
    (register_features [] "dcim" "device" ["webhooks"]).1
    "virtualization" "virtualmachine" ["webhooks"]).1

/-! ### Lemmas about the association-list primitives -/

theorem lookupKey_setKey (acc : List (String × Json)) (k k' : String) (v : Json) :
    lookupKey (setKey acc k v) k' = if k = k' then some v else lookupKey acc k' := by
  induction acc with
  | nil => simp [setKey, lookupKey]
  | cons p rest ih =>
      obtain ⟨k₁, v₁⟩ := p
      by_cases h : k₁ = k
      · subst h
        by_cases h' : k₁ = k' <;> simp [setKey, lookupKey, h']
      · by_cases h' : k₁ = k'
        · subst h'
          have hk : k ≠ k₁ := fun g => h g.symm
          simp [setKey, lookupKey, h, hk]
        · simp [setKey, lookupKey, h, h', ih]

theorem lookupLast_cons (k₁ : String) (v₁ : Json) (rest : List (String × Json)) (k : String) :
    lookupLast ((k₁, v₁) :: rest) k =
      match lookupLast rest k with
      | some v => some v
      | none => if k₁ = k then some v₁ else none := rfl

theorem mergedValue_of_not_obj (o : List (String × Json)) (k : String) (v : Json)
    (hv : isObj v = false) : mergedValue o k v = v := by
  rw [mergedValue]
  cases ho : lookupKey o k with
  | none => cases v <;> simp_all [isObj]
  | some w => cases w <;> cases v <;> simp_all [isObj]

theorem deepmergeFields_nil (o acc : List (String × Json)) :
    deepmergeFields o acc [] = acc := by
  rw [deepmergeFields]

theorem deepmergeFields_cons (o acc : List (String × Json)) (k : String) (v : Json)
    (rest : List (String × Json)) :
    deepmergeFields o acc ((k, v) :: rest) =
      deepmergeFields o (setKey acc k (mergedValue o k v)) rest := by
  rw [deepmergeFields]

/-- A key that no field of `n` binds is untouched by the merge. -/
theorem lookupKey_deepmergeFields_of_none (n : List (String × Json)) :
    ∀ (o acc : List (String × Json)) (k : String), lookupLast n k = none →
    lookupKey (deepmergeFields o acc n) k = lookupKey acc k := by
  induction n with
  | nil => intro o acc k _; rw [deepmergeFields_nil]
  | cons p rest ih =>
      intro o acc k hnone
      obtain ⟨k₁, v₁⟩ := p
      rw [lookupLast_cons] at hnone
      cases hr : lookupLast rest k with
      | some v => rw [hr] at hnone; exact absurd hnone (by simp)
      | none =>
          rw [hr] at hnone
          have hk : k₁ ≠ k := by
            intro h; rw [if_pos h] at hnone; exact absurd hnone (by simp)
          rw [deepmergeFields_cons, ih o _ k hr, lookupKey_setKey, if_neg hk]

/-- If the last binding of `k` in the new document is a non-mapping value
`v`, the merge leaves `k` bound to exactly `v`. -/
theorem lookupKey_deepmergeFields_of_last (n : List (String × Json)) :
    ∀ (o acc : List (String × Json)) (k : String) (v : Json),
    lookupLast n k = some v → isObj v = false →
    lookupKey (deepmergeFields o acc n) k = some v := by
  induction n with
  | nil => intro o acc k v h _; exact absurd h (by simp [lookupLast])
  | cons p rest ih =>
      intro o acc k v hlast hv
      obtain ⟨k₁, v₁⟩ := p
      rw [lookupLast_cons] at hlast
      cases hr : lookupLast rest k with
      | some w =>
          rw [hr] at hlast
          injection hlast with hw
          subst hw
          rw [deepmergeFields_cons]
          exact ih o _ k w hr hv
      | none =>
          rw [hr] at hlast
          by_cases hk : k₁ = k
          · rw [if_pos hk] at hlast
            simp only [Option.some.injEq] at hlast
            subst hlast; subst hk
            rw [deepmergeFields_cons,
              lookupKey_deepmergeFields_of_none rest o _ k₁ hr,
              lookupKey_setKey, if_pos rfl, mergedValue_of_not_obj o k₁ v₁ hv]
          · rw [if_neg hk] at hlast
            exact absurd hlast (by simp)

/-! ### Lemmas about folding `deepmerge` over document sequences -/

theorem deepmerge_obj (o n : List (String × Json)) :
    deepmerge (Json.obj o) (Json.obj n) = Json.obj (deepmergeFields o o n) := rfl

theorem isObj_deepmerge (a b : Json) (ha : isObj a = true) (hb : isObj b = true) :
    isObj (deepmerge a b) = true := by
  cases a <;> cases b <;> simp_all [isObj, deepmerge]

theorem isObj_foldl_deepmerge (cs : List Json) :
    ∀ acc : Json, isObj acc = true → (∀ c ∈ cs, isObj c = true) →
    isObj (cs.foldl deepmerge acc) = true := by
  induction cs with
  | nil => intro acc hacc _; exact hacc
  | cons c rest ih =>
      intro acc hacc hcs
      rw [List.foldl_cons]
      exact ih _ (isObj_deepmerge acc c hacc (hcs c (by simp)))
        (fun x hx => hcs x (by simp [hx]))

/-- Folding documents that either do not bind `k` or re-bind it to the same
non-mapping value `v` keeps `k` bound to `v`. -/
theorem foldl_deepmerge_keep (k : String) (v : Json) (hv : isObj v = false)
    (cs : List Json) :
    ∀ acc : Json, isObj acc = true →
    (∀ c ∈ cs, isObj c = true ∧ (lookupLastJ c k = none ∨ lookupLastJ c k = some v)) →
    lookupJ acc k = some v →
    lookupJ (cs.foldl deepmerge acc) k = some v := by
  induction cs with
  | nil => intro acc _ _ hk; exact hk
  | cons c rest ih =>
      intro acc hacc hcs hk
      obtain ⟨hc, hck⟩ := hcs c (by simp)
      cases acc with
      | obj afs =>
          cases c with
          | obj fs =>
              rw [List.foldl_cons, deepmerge_obj]
              refine ih _ (by simp [isObj]) (fun x hx => hcs x (by simp [hx])) ?_
              rcases hck with hnone | hsome
              · rw [lookupJ] at hk ⊢
                rw [lookupKey_deepmergeFields_of_none fs afs afs k hnone]
                exact hk
              · rw [lookupJ]
                exact lookupKey_deepmergeFields_of_last fs afs afs k v hsome hv
          | null => exact absurd hc (by simp [isObj])
          | bool b => exact absurd hc (by simp [isObj])
          | num n => exact absurd hc (by simp [isObj])
          | str s => exact absurd hc (by simp [isObj])
          | arr xs => exact absurd hc (by simp [isObj])
      | null => exact absurd hacc (by simp [isObj])
      | bool b => exact absurd hacc (by simp [isObj])
      | num n => exact absurd hacc (by simp [isObj])
      | str s => exact absurd hacc (by simp [isObj])
      | arr xs => exact absurd hacc (by simp [isObj])

/-- Folding `l₁ ++ c :: l₂` where `c` binds `k` last to a non-mapping value
`v` and the trailing documents at most re-bind `k` to `v` yields `v` at
`k`. -/
theorem foldl_deepmerge_last_setter (k : String) (v : Json) (hv : isObj v = false)
    (l₁ l₂ : List Json) (c acc : Json)
    (hacc : isObj acc = true)
    (h₁ : ∀ x ∈ l₁, isObj x = true)
    (hc : isObj c = true) (hck : lookupLastJ c k = some v)
    (h₂ : ∀ x ∈ l₂, isObj x = true ∧ (lookupLastJ x k = none ∨ lookupLastJ x k = some v)) :
    lookupJ ((l₁ ++ c :: l₂).foldl deepmerge acc) k = some v := by
  rw [List.foldl_append, List.foldl_cons]
  have hmid : isObj (l₁.foldl deepmerge acc) = true := isObj_foldl_deepmerge l₁ acc hacc h₁
  refine foldl_deepmerge_keep k v hv l₂ _ ?_ h₂ ?_
  · cases hmv : l₁.foldl deepmerge acc with
    | obj afs =>
        cases c with
        | obj fs => simp [isObj, deepmerge]
        | null => exact absurd hc (by simp [isObj])
        | bool b => exact absurd hc (by simp [isObj])
        | num n => exact absurd hc (by simp [isObj])
        | str s => exact absurd hc (by simp [isObj])
        | arr xs => exact absurd hc (by simp [isObj])
    | null => rw [hmv] at hmid; exact absurd hmid (by simp [isObj])
    | bool b => rw [hmv] at hmid; exact absurd hmid (by simp [isObj])
    | num n => rw [hmv] at hmid; exact absurd hmid (by simp [isObj])
    | str s => rw [hmv] at hmid; exact absurd hmid (by simp [isObj])
    | arr xs => rw [hmv] at hmid; exact absurd hmid (by simp [isObj])
  · cases hmv : l₁.foldl deepmerge acc with
    | obj afs =>
        cases c with
        | obj fs =>
            rw [deepmerge_obj, lookupJ]
            exact lookupKey_deepmergeFields_of_last fs afs afs k v (by rw [lookupLastJ] at hck; exact hck) hv
        | null => exact absurd hc (by simp [isObj])
        | bool b => exact absurd hc (by simp [isObj])
        | num n => exact absurd hc (by simp [isObj])
        | str s => exact absurd hc (by simp [isObj])
        | arr xs => exact absurd hc (by simp [isObj])
    | null => rw [hmv] at hmid; exact absurd hmid (by simp [isObj])
    | bool b => rw [hmv] at hmid; exact absurd hmid (by simp [isObj])
    | num n => rw [hmv] at hmid; exact absurd hmid (by simp [isObj])
    | str s => rw [hmv] at hmid; exact absurd hmid (by simp [isObj])
    | arr xs => rw [hmv] at hmid; exact absurd hmid (by simp [isObj])

/-- `(weight, name)`-order facts: a strictly earlier row cannot also be a
(weak) later row. -/
theorem not_ccLT_of_ccLE (a b : ConfigContext) (h : ccLE a b) : ¬ ccLT b a := by
  intro h'
  rcases h with hw | ⟨hw, hn⟩ <;> rcases h' with gw | ⟨gw, gn⟩
  · omega
  · omega
  · omega
  · exact absurd (lt_of_lt_of_le gn hn) (lt_irrefl _)

/-- **C1** (amended): contexts are applied in ascending `(weight, name)`
order, so for a key bound by several matching documents the value returned
by `get_config_context` equals the value from the `(weight, name)`-greatest
document binding the key — the highest weight wins, and between equal
weights the lexicographically later name wins — *provided that winning
value is not itself a mapping* (two mapping values are deep-merged
key-by-key instead, per the nested-merge rule).  `ccLT c d` states that `c`
has lower weight than `d`, or equal weight and lexicographically earlier
name. -/
theorem highest_weight_then_latest_name_wins
    (store : List ConfigContext) (m : ConfigContextModel)
    (d : ConfigContext) (k : String) (v : Json)
    (hattr : m.config_context_data = none)
    (hlocal : m.local_context_data = none)
    (hobj : ∀ c ∈ store, isObj c.data = true)
    (hd : d ∈ store)
    (hdk : lookupLastJ d.data k = some v)
    (hv : isObj v = false)
    (hmax : ∀ c ∈ store, lookupLastJ c.data k ≠ none → c = d ∨ ccLT c d) :
    lookupJ (get_config_context store m) k = some v := by
  have hsortmem : ∀ a : ConfigContext, a ∈ List.insertionSort ccLE store ↔ a ∈ store :=
    fun a => (List.perm_insertionSort ccLE store).mem_iff
  have hdmem : d ∈ List.insertionSort ccLE store := (hsortmem d).mpr hd
  obtain ⟨s, t, hst⟩ := List.append_of_mem hdmem
  have hsorted : List.Pairwise ccLE (s ++ d :: t) :=
    hst ▸ List.sorted_insertionSort ccLE store
  have ht : ∀ x ∈ t, ccLE d x :=
    (List.pairwise_cons.mp (List.pairwise_append.mp hsorted).2.1).1
  simp only [get_config_context, config_context_list, hattr, hlocal]
  rw [get_for_object, hst, List.map_append, List.map_cons]
  refine foldl_deepmerge_last_setter k v hv _ _ _ _ (by simp [isObj]) ?_ ?_ hdk ?_
  · intro x hx
    obtain ⟨c, hc, rfl⟩ := List.mem_map.mp hx
    exact hobj c ((hsortmem c).mp (hst ▸ List.mem_append_left _ hc))
  · exact hobj d hd
  · intro x hx
    obtain ⟨c, hc, rfl⟩ := List.mem_map.mp hx
    have hcstore : c ∈ store :=
      (hsortmem c).mp (hst ▸ (by simp [hc] : c ∈ s ++ d :: t))
    refine ⟨hobj c hcstore, ?_⟩
    by_cases hck : lookupLastJ c.data k = none
    · exact Or.inl hck
    · rcases hmax c hcstore hck with rfl | hlt
      · exact Or.inr hdk
      · exact absurd hlt (not_ccLT_of_ccLE d c (ht c hc))

theorem obj_of_isObj (j : Json) (h : isObj j = true) : ∃ fs, j = Json.obj fs := by
  cases j <;> simp_all [isObj]

/-! ### Claim theorems -/

/-- **C3**: with matching contexts `A(weight=1000, name="base",
data={"a":1,"b":{"x":1}})` and `B(weight=2000, name="override",
data={"b":{"y":2},"c":3})` and local context data `{"a":9}`,
`get_config_context` returns exactly `{"a":9, "b":{"x":1,"y":2}, "c":3}`:
nested mappings merge key-by-key and scalars are replaced by the later
document. -/
theorem example_end_to_end_merge :
    get_config_context [c3B, c3A] ⟨none, some (Json.obj [("a", Json.num 9)])⟩
      = Json.obj [("a", Json.num 9),
          ("b", Json.obj [("x", Json.num 1), ("y", Json.num 2)]),
          ("c", Json.num 3)] := by
  simp [get_config_context, config_context_list, get_for_object, c3A, c3B,
    List.insertionSort, List.orderedInsert, ccLE, truthy,
    deepmerge, deepmergeFields, mergedValue, lookupKey, setKey]

/-- **C5**: `ConfigContext.clean` raises a validation error keyed to the
`data` field if and only if the stored data is not a JSON object: a list
value fails validation, the empty object passes, and the empty object
merges as a no-op. -/
theorem clean_data_must_be_object :
    (∀ c : ConfigContext, ConfigContext.clean c = Except.ok () ↔ isObj c.data = true) ∧
    (∀ c : ConfigContext, ConfigContext.clean c
        = Except.error ("data", "JSON data must be in object form. Example: \x7b\"foo\": 123\x7d")
      ↔ isObj c.data = false) ∧
    ConfigContext.clean
        ⟨"bad", 1000, Json.arr [Json.str "not", Json.str "an", Json.str "object"]⟩
      = Except.error ("data", "JSON data must be in object form. Example: \x7b\"foo\": 123\x7d") ∧
    ConfigContext.clean ⟨"empty", 1000, Json.obj []⟩ = Except.ok () ∧
    (∀ fs, deepmerge (Json.obj fs) (Json.obj []) = Json.obj fs) := by
  refine ⟨?_, ?_, by simp [ConfigContext.clean, isObj], by simp [ConfigContext.clean, isObj], ?_⟩
  · intro c
    rw [ConfigContext.clean]
    cases h : isObj c.data <;> simp [h]
  · intro c
    rw [ConfigContext.clean]
    cases h : isObj c.data <;> simp [h]
  · intro fs
    rw [deepmerge_obj, deepmergeFields_nil]

/-- **C6** (counterexample): `local_context_data = []` is present, non-null
and not a JSON object, yet `ConfigContextModel.clean` accepts it silently —
the guard `if self.local_context_data and ...` short-circuits on the falsy
empty list, so no validation error is raised. -/
theorem clean_local_empty_list_accepted :
    (ConfigContextModel.mk none (some (Json.arr []))).local_context_data = some (Json.arr []) ∧
    isObj (Json.arr []) = false ∧
    Json.arr [] ≠ Json.null ∧
    ConfigContextModel.clean ⟨none, some (Json.arr [])⟩ = Except.ok () := by
  refine ⟨rfl, rfl, by simp, ?_⟩
  simp [ConfigContextModel.clean, truthy, isObj]

/-- **C6** (amended): `ConfigContextModel.clean` raises a validation error
keyed to the `local_context_data` field if and only if the value is
present, truthy and not a JSON object; falsy non-object values (such as the
empty list or the empty string) are silently accepted. -/
theorem clean_local_truthy_non_object_rejected (m : ConfigContextModel) :
    ConfigContextModel.clean m
        = Except.error ("local_context_data",
            "JSON data must be in object form. Example: \x7b\"foo\": 123\x7d")
      ↔ ∃ j, m.local_context_data = some j ∧ truthy j = true ∧ isObj j = false := by
  cases hl : m.local_context_data with
  | none => simp [ConfigContextModel.clean, hl]
  | some j =>
      rw [ConfigContextModel.clean]
      rw [hl]
      cases ht : truthy j <;> cases ho : isObj j <;> simp [ht, ho]

/-- **C9** (counterexample): deep merge is *not* associative: when a scalar
overwrites a mapping and a mapping is merged afterwards, the grouping
matters. -/
theorem deepmerge_not_associative :
    deepmerge (deepmerge (Json.obj [("k", Json.obj [("x", Json.num 1)])])
        (Json.obj [("k", Json.num 5)]))
        (Json.obj [("k", Json.obj [("y", Json.num 2)])])
      ≠ deepmerge (Json.obj [("k", Json.obj [("x", Json.num 1)])])
        (deepmerge (Json.obj [("k", Json.num 5)])
          (Json.obj [("k", Json.obj [("y", Json.num 2)])])) := by
  simp [deepmerge, deepmergeFields, mergedValue, lookupKey, setKey]

/-- **C9** (amended): deep-merge application is order-dependent: for the
documents `A={"a":1}`, `B={"k":1}`, `C={"k":2}` — with `B` and `C` both
setting `"k"` — merging `A` with `B` then `C` differs from merging `A` with
`C` then `B`; and deep merge is not associative in general (the grouping of
`{"k":{"x":1}}`, `{"k":5}`, `{"k":{"y":2}}` matters). -/
theorem deepmerge_order_dependent :
    lookupJ (Json.obj [("k", Json.num 1)]) "k" ≠ none ∧
    lookupJ (Json.obj [("k", Json.num 2)]) "k" ≠ none ∧
    deepmerge (deepmerge (Json.obj [("a", Json.num 1)]) (Json.obj [("k", Json.num 1)]))
        (Json.obj [("k", Json.num 2)])
      ≠ deepmerge (deepmerge (Json.obj [("a", Json.num 1)]) (Json.obj [("k", Json.num 2)]))
        (Json.obj [("k", Json.num 1)]) ∧
    deepmerge (deepmerge (Json.obj [("k", Json.obj [("x", Json.num 1)])])
        (Json.obj [("k", Json.num 5)]))
        (Json.obj [("k", Json.obj [("y", Json.num 2)])])
      ≠ deepmerge (Json.obj [("k", Json.obj [("x", Json.num 1)])])
        (deepmerge (Json.obj [("k", Json.num 5)])
          (Json.obj [("k", Json.obj [("y", Json.num 2)])])) := by
  refine ⟨by simp [lookupJ, lookupKey], by simp [lookupJ, lookupKey], ?_, ?_⟩ <;>
    simp [deepmerge, deepmergeFields, mergedValue, lookupKey, setKey]

/-- **C10**: when the target carries a precomputed `config_context_data`
attribute whose value is `None` or the empty list, `get_config_context`
never consults the `ConfigContext` store (the result is independent of the
store's contents) and returns only the local override data merged into an
empty mapping — the empty mapping itself when no local data is set. -/
theorem precomputed_empty_skips_store
    (store store' : List ConfigContext) (m : ConfigContextModel)
    (h : m.config_context_data = some none ∨ m.config_context_data = some (some [])) :
    get_config_context store m = get_config_context store' m ∧
    get_config_context store m =
      (match m.local_context_data with
       | some l => if truthy l then deepmerge (Json.obj []) l else Json.obj []
       | none => Json.obj []) := by
  rcases h with h | h <;>
    simp [get_config_context, config_context_list, h]

/-- **C10** (witness): a model with a present-but-`None` annotation and
local data `{"a": 1}` resolves identically against two different stores. -/
theorem precomputed_empty_skips_store_witness :
    get_config_context [c3A] ⟨some none, some (Json.obj [("a", Json.num 1)])⟩
        = get_config_context [] ⟨some none, some (Json.obj [("a", Json.num 1)])⟩ ∧
    get_config_context [c3A] ⟨some none, some (Json.obj [("a", Json.num 1)])⟩
      = (match (some (Json.obj [("a", Json.num 1)]) : Option Json) with
         | some l => if truthy l then deepmerge (Json.obj []) l else Json.obj []
         | none => Json.obj []) :=
  precomputed_empty_skips_store [c3A] []
    ⟨some none, some (Json.obj [("a", Json.num 1)])⟩ (Or.inl rfl)

/-- **C1** (counterexample): two matching documents with distinct weights
both bind `"k"`, yet the resolved value does *not* equal the value from the
highest-weight document: both values are mappings, so they are deep-merged
key-by-key instead of the higher weight replacing the lower. -/
theorem nested_mapping_key_not_replaced :
    c1low.weight ≠ c1high.weight ∧
    lookupJ c1low.data "k" ≠ none ∧
    lookupJ c1high.data "k" ≠ none ∧
    c1low.weight < c1high.weight ∧
    lookupJ (get_config_context [c1low, c1high] ⟨none, none⟩) "k"
      ≠ lookupJ c1high.data "k" := by
  refine ⟨by decide, by simp [c1low, lookupJ, lookupKey],
    by simp [c1high, lookupJ, lookupKey], by decide, ?_⟩
  simp [get_config_context, config_context_list, get_for_object, c1low, c1high,
    List.insertionSort, List.orderedInsert, ccLE,
    deepmerge, deepmergeFields, mergedValue, lookupKey, setKey, lookupJ]

/-- **C1** (witness): for two scalar-valued documents of weights 1000 and
2000 both binding `"k"`, the resolver returns the value of the
higher-weight document. -/
theorem highest_weight_then_latest_name_wins_witness :
    lookupJ (get_config_context [c1wHigh, c1wLow] ⟨none, none⟩) "k" = some (Json.num 2) :=
  highest_weight_then_latest_name_wins [c1wHigh, c1wLow] ⟨none, none⟩ c1wHigh "k"
    (Json.num 2) rfl rfl (by decide) (by simp) rfl rfl
    (by simp [c1wLow, c1wHigh, ccLT, lookupLastJ, lookupLast])

/-- **C2**: for a target whose `local_context_data` is a non-empty JSON
object, every key that the local data binds (last) to a non-mapping value
— a scalar or an array — resolves to the local value, whatever the weights
of the matching `ConfigContext` documents. -/
theorem local_data_always_wins
    (store : List ConfigContext) (m : ConfigContextModel)
    (lfs : List (String × Json)) (k : String) (v : Json)
    (hattr : m.config_context_data = none)
    (hlocal : m.local_context_data = some (Json.obj lfs))
    (hne : lfs ≠ [])
    (hobj : ∀ c ∈ store, isObj c.data = true)
    (hk : lookupLast lfs k = some v)
    (hv : isObj v = false) :
    lookupJ (get_config_context store m) k = some v := by
  have htruthy : truthy (Json.obj lfs) = true := by
    simp [truthy, hne]
  have hdataobj : isObj ((config_context_list store m).foldl deepmerge (Json.obj [])) = true := by
    refine isObj_foldl_deepmerge _ _ (by simp [isObj]) ?_
    intro c hc
    rw [config_context_list, hattr, get_for_object] at hc
    obtain ⟨cc, hcc, rfl⟩ := List.mem_map.mp hc
    exact hobj cc ((List.perm_insertionSort ccLE store).mem_iff.mp hcc)
  obtain ⟨dfs, hdfs⟩ := obj_of_isObj _ hdataobj
  simp only [get_config_context, hlocal, htruthy, if_true]
  rw [hdfs, deepmerge_obj, lookupJ]
  exact lookupKey_deepmergeFields_of_last lfs dfs dfs k v hk hv

/-- **C2** (witness): the spec's example — inherited `{"ntp": ["1.1.1.1"]}`
with local `{"ntp": ["2.2.2.2"]}` resolves `"ntp"` to `["2.2.2.2"]`. -/
theorem local_data_always_wins_witness :
    lookupJ (get_config_context [c2ctx]
        ⟨none, some (Json.obj [("ntp", Json.arr [Json.str "2.2.2.2"])])⟩) "ntp"
      = some (Json.arr [Json.str "2.2.2.2"]) :=
  local_data_always_wins [c2ctx] ⟨none, some (Json.obj [("ntp", Json.arr [Json.str "2.2.2.2"])])⟩
    [("ntp", Json.arr [Json.str "2.2.2.2"])] "ntp" (Json.arr [Json.str "2.2.2.2"])
    rfl rfl (by simp) (by decide) rfl rfl

/-- **C7**: whenever the matching context payloads are JSON objects and the
local context data is absent or a JSON object (as validation guarantees),
`get_config_context` returns a JSON object — possibly empty, never null —
also after the final local-data merge; and when the local override data is
absent or the empty object, the result is exactly the fold of the inherited
context documents alone. -/
theorem resolver_returns_mapping
    (store : List ConfigContext) (m : ConfigContextModel)
    (hctx : ∀ j ∈ config_context_list store m, isObj j = true)
    (hlocal : m.local_context_data = none ∨
      ∃ lfs, m.local_context_data = some (Json.obj lfs)) :
    (∃ fs, get_config_context store m = Json.obj fs) ∧
    get_config_context store m ≠ Json.null ∧
    ((m.local_context_data = none ∨ m.local_context_data = some (Json.obj [])) →
      get_config_context store m
        = (config_context_list store m).foldl deepmerge (Json.obj [])) := by
  have hfold : isObj ((config_context_list store m).foldl deepmerge (Json.obj [])) = true :=
    isObj_foldl_deepmerge _ _ (by simp [isObj]) hctx
  have hres : isObj (get_config_context store m) = true := by
    rcases hlocal with h | ⟨lfs, h⟩
    · simp only [get_config_context, h]
      exact hfold
    · simp only [get_config_context, h]
      by_cases ht : truthy (Json.obj lfs) = true
      · rw [if_pos ht]
        exact isObj_deepmerge _ _ hfold (by simp [isObj])
      · rw [if_neg ht]
        exact hfold
  obtain ⟨fs, hfs⟩ := obj_of_isObj _ hres
  refine ⟨⟨fs, hfs⟩, by rw [hfs]; simp, ?_⟩
  intro hsmall
  rcases hsmall with h | h
  · simp only [get_config_context, h]
  · simp only [get_config_context, h, truthy, List.isEmpty_nil, Bool.not_true,
      Bool.false_eq_true, if_false]

/-- **C7** (witness): with no matching documents and no local data the
resolver returns the empty mapping — the fold of the empty document
sequence — and with the non-empty local data `{"a": 1}` it still returns a
mapping, never null. -/
theorem resolver_returns_mapping_witness :
    ((∃ fs, get_config_context [] ⟨none, none⟩ = Json.obj fs) ∧
      get_config_context [] ⟨none, none⟩ ≠ Json.null ∧
      (((⟨none, none⟩ : ConfigContextModel).local_context_data = none ∨
          (⟨none, none⟩ : ConfigContextModel).local_context_data = some (Json.obj [])) →
        get_config_context [] ⟨none, none⟩
          = (config_context_list [] ⟨none, none⟩).foldl deepmerge (Json.obj []))) ∧
    ((∃ fs, get_config_context [] ⟨none, some (Json.obj [("a", Json.num 1)])⟩ = Json.obj fs) ∧
      get_config_context [] ⟨none, some (Json.obj [("a", Json.num 1)])⟩ ≠ Json.null ∧
      (((⟨none, some (Json.obj [("a", Json.num 1)])⟩ : ConfigContextModel).local_context_data = none ∨
          (⟨none, some (Json.obj [("a", Json.num 1)])⟩ : ConfigContextModel).local_context_data
            = some (Json.obj [])) →
        get_config_context [] ⟨none, some (Json.obj [("a", Json.num 1)])⟩
          = (config_context_list []
              ⟨none, some (Json.obj [("a", Json.num 1)])⟩).foldl deepmerge (Json.obj []))) :=
  ⟨resolver_returns_mapping [] ⟨none, none⟩
      (by simp [config_context_list, get_for_object, List.insertionSort]) (Or.inl rfl),
   resolver_returns_mapping [] ⟨none, some (Json.obj [("a", Json.num 1)])⟩
      (by simp [config_context_list, get_for_object, List.insertionSort])
      (Or.inr ⟨[("a", Json.num 1)], rfl⟩)⟩

/-- **C4** (counterexample): registering under `["webhooks", "bogus"]`
raises the error naming the invalid feature, but the registry is *not*
unchanged at that point: the valid feature `"webhooks"` processed earlier
in the loop has already recorded the model's pair. -/
theorem register_features_mutates_before_error :
    (register_features [] "dcim" "device" ["webhooks", "bogus"]).2
        = some "bogus is not a valid extras feature!" ∧
    (register_features [] "dcim" "device" ["webhooks", "bogus"]).1 ≠ [] ∧
    registered (register_features [] "dcim" "device" ["webhooks", "bogus"]).1
        "webhooks" "dcim" "device" = true := by
  refine ⟨by decide, by decide, by decide⟩

/-- **C4** (amended): `register_features` raises an error naming the first
feature not in `EXTRAS_FEATURES`; at that point the registry holds exactly
the registrations for the (valid) features preceding it in iteration
order — nothing at or after the invalid feature is recorded. -/
theorem register_features_stops_at_first_invalid
    (r : Registry) (app mdl : String) (pre : List String) (f : String) (post : List String)
    (hpre : ∀ g ∈ pre, g ∈ EXTRAS_FEATURES) (hf : f ∉ EXTRAS_FEATURES) :
    register_features r app mdl (pre ++ f :: post)
      = ((register_features r app mdl pre).1, some (f ++ " is not a valid extras feature!")) := by
  induction pre generalizing r with
  | nil => simp [register_features, hf]
  | cons g pre' ih =>
      have hg : g ∈ EXTRAS_FEATURES := hpre g (by simp)
      rw [List.cons_append]
      simp only [register_features, hg, if_true]
      exact ih _ (fun x hx => hpre x (by simp [hx]))

/-- **C4** (witness): `["webhooks", "bogus"]` errors on `"bogus"` and
leaves the registry exactly as after registering `["webhooks"]` alone. -/
theorem register_features_stops_at_first_invalid_witness :
    register_features [] "dcim" "device" (["webhooks"] ++ "bogus" :: [])
      = ((register_features [] "dcim" "device" ["webhooks"]).1,
          some ("bogus" ++ " is not a valid extras feature!")) :=
  register_features_stops_at_first_invalid [] "dcim" "device"
    ["webhooks"] "bogus" [] (by decide) (by decide)

theorem qOr_cond_ne_empty (q : DjangoQ) (a : String) (ms : List String) :
    qOr q (DjangoQ.cond a ms) ≠ DjangoQ.empty := by
  cases q <;> simp [qOr]

theorem evalQ_qOr_cond (q : DjangoQ) (hq : q ≠ DjangoQ.empty)
    (a : String) (ms : List String) (app mdl : String) :
    evalQ (qOr q (DjangoQ.cond a ms)) app mdl
      = (evalQ q app mdl || (decide (a = app) && decide (mdl ∈ ms))) := by
  cases q <;> simp_all [qOr, evalQ]

theorem evalQ_foldl_cond (app mdl : String) (l : List (String × List String)) :
    ∀ q : DjangoQ, q ≠ DjangoQ.empty →
    evalQ (l.foldl (fun q p => qOr q (DjangoQ.cond p.1 p.2)) q) app mdl
      = (evalQ q app mdl || l.any (fun p => decide (p.1 = app) && decide (mdl ∈ p.2))) := by
  induction l with
  | nil => intro q _; simp
  | cons p rest ih =>
      intro q hq
      rw [List.foldl_cons, ih _ (qOr_cond_ne_empty q p.1 p.2),
        evalQ_qOr_cond q hq p.1 p.2 app mdl]
      simp [Bool.or_assoc]

/-- **C8**: a `FeatureQuery` stores only the feature name at construction;
when at least one model is registered for the feature by the time the query
is evaluated, the built disjunctive predicate matches a content type
`(app, mdl)` exactly when that pair is registered under the feature in the
registry supplied at evaluation time — the result depends only on the
registry contents at evaluation, not at construction. -/
theorem feature_query_matches_registered (f : String) (r : Registry) (app mdl : String)
    (h : featureApps r f ≠ []) :
    evalQ (FeatureQuery.get_query ⟨f⟩ r) app mdl = registered r f app mdl := by
  rw [FeatureQuery.get_query, registered]
  cases hl : featureApps r f with
  | nil => exact absurd hl h
  | cons p rest =>
      rw [List.foldl_cons]
      have h1 : qOr DjangoQ.empty (DjangoQ.cond p.1 p.2) = DjangoQ.cond p.1 p.2 := rfl
      rw [h1, evalQ_foldl_cond app mdl rest _ (by simp)]
      simp [evalQ]

/-- **C8** (witness): the query for `"webhooks"` — constructible before any
registration since it holds only the feature name — evaluated against the
registry holding two registered models matches exactly the registered
pairs. -/
theorem feature_query_matches_registered_witness :
    evalQ (FeatureQuery.get_query ⟨"webhooks"⟩ c8registry) "dcim" "device"
        = registered c8registry "webhooks" "dcim" "device" ∧
    evalQ (FeatureQuery.get_query ⟨"webhooks"⟩ c8registry) "virtualization" "virtualmachine"
        = registered c8registry "webhooks" "virtualization" "virtualmachine" ∧
    evalQ (FeatureQuery.get_query ⟨"webhooks"⟩ c8registry) "ipam" "prefix"
        = registered c8registry "webhooks" "ipam" "prefix" :=
  ⟨feature_query_matches_registered "webhooks" c8registry "dcim" "device" (by decide),
   feature_query_matches_registered "webhooks" c8registry "virtualization" "virtualmachine"
     (by decide),
   feature_query_matches_registered "webhooks" c8registry "ipam" "prefix" (by decide)⟩

end Netbox
